import Mathlib

/-!
# Verification of the Sculptor session-authentication core

Shallow embedding of `src/src/main.rs` (the session/handshake core of the
Sculptor gateway) together with the interfaces of its collaborator modules
(`auth`, `ws`, `config`), which are declared in `main.rs` but whose source
is not part of the provided tree; those are modelled from the specification
and marked as such in their doc comments.

The registries of `AppState` (main.rs lines 44-54) are `DashMap`s behind
`Arc<Mutex<_>>`: every operation on a registry happens under the lock, so
the embedding linearises them as pure functions on an association-list map.
-/

namespace Sculptor

/-! ## Association-list maps (model of `DashMap` under its `Mutex`) -/

/-- Lookup of a key in an association-list map. -/
def mfind {κ α : Type} [DecidableEq κ] (m : List (κ × α)) (k : κ) : Option α :=
  match m with
  | [] => none
  | (k₁, v) :: rest => if k₁ = k then some v else mfind rest k

/-- Remove every binding of a key (model of `DashMap::remove`). -/
def mErase {κ α : Type} [DecidableEq κ] (m : List (κ × α)) (k : κ) : List (κ × α) :=
  match m with
  | [] => []
  | (k₁, v) :: rest => if k₁ = k then mErase rest k else (k₁, v) :: mErase rest k

/-- Insert with overwrite (model of `DashMap::insert`, last write wins). -/
def mInsert {κ α : Type} [DecidableEq κ] (m : List (κ × α)) (k : κ) (v : α) :
    List (κ × α) :=
  (k, v) :: mErase m k

/-! ## Data model (main.rs lines 36-54) -/

/-- Modelled from the spec: the `AuthSystem` enum lives in the `auth` module,
which is not part of the provided tree; per §3 it is "a closed set of supported
identity backends" that the core stores but never interprets. -/
inductive AuthSystem : Type
  | internal : AuthSystem
  | elyBy : AuthSystem
deriving DecidableEq, Repr

/-- `Userinfo` (main.rs lines 36-42): username, uuid and auth backend.
A UUID is modelled as a natural number. -/
structure Userinfo : Type where
  username : String
  uuid : Nat
  auth_system : AuthSystem
deriving DecidableEq, Repr

/-- Model of `toml::Table` (the `advanced_users` table): an association list of
string keys to string values, compared by value as the reload loop does. -/
def TomlTable : Type := List (String × String)

instance : DecidableEq TomlTable := by
  unfold TomlTable
  infer_instance

/-- `AppState` (main.rs lines 44-54): the four process-wide registries.
`broadcasts` maps a connection UUID to a broadcast-sender handle (the
channel itself is opaque to the registry, so it is modelled by a handle). -/
structure AppState : Type where
  pending : List (String × String)
  authenticated : List (String × Userinfo)
  broadcasts : List (Nat × Nat)
  advanced_users : TomlTable
deriving DecidableEq

/-- The state built in `main` (main.rs lines 85-90): all registries empty,
`advanced_users` taken from the startup config parse. -/
def initialAppState (t : TomlTable) : AppState :=
  { pending := [], authenticated := [], broadcasts := [], advanced_users := t }

/-! ## Handshake and access operations

The `auth` module declared at main.rs line 19 is not part of the provided
tree; the operations below are modelled from the spec (§4.1, §4.2, §6). -/

/-- Modelled from the spec (§4.1): `beginJoin(sessionHash, username)` inserts
`(sessionHash → username)` into the PendingRegistry; if the hash is already
present it overwrites (last-write-wins, treated as client retry). -/
def beginJoin (st : AppState) (h : String) (u : String) : AppState :=
  { st with pending := mInsert st.pending h u }

/-- Modelled from the spec (§4.1): `takePending(sessionHash)` atomically reads
and removes the pending entry, returning the username or `NotFound` (`none`). -/
def takePending (st : AppState) (h : String) : Option String × AppState :=
  match mfind st.pending h with
  | none => (none, st)
  | some u => (some u, { st with pending := mErase st.pending h })

/-- Modelled from the spec (§4.2): `promote(sessionHash, identity)` inserts
`(sessionHash → identity)` into the AuthenticatedRegistry (overwrite on
re-promotion). -/
def promote (st : AppState) (h : String) (id : Userinfo) : AppState :=
  { st with authenticated := mInsert st.authenticated h id }

/-- Modelled from the spec (§6, §4.1-4.2): `confirmJoin(h)` takes the pending
entry; on `NotFound` it fails with `Unauthorized` (`none`). Otherwise the
external identity-resolution collaborator is consulted (it may fail with
`IdentityError`) and on success the identity is promoted. -/
def confirmJoin (resolve : String → Option Userinfo) (st : AppState) (h : String) :
    Option Userinfo × AppState :=
  match takePending st h with
  | (none, st₁) => (none, st₁)
  | (some u, st₁) =>
    match resolve u with
    | none => (none, st₁)
    | some id => (some id, promote st₁ h id)

/-- Modelled from the spec (§4.2, §6): `checkAccess(token)` / `resolve(token)`
is a read-only lookup in the AuthenticatedRegistry; `none` is `Unauthorized`. -/
def checkAccess (st : AppState) (t : String) : Option Userinfo :=
  mfind st.authenticated t

/-- Modelled from the spec (§4.2): `revoke(sessionHash)` removes an entry from
the AuthenticatedRegistry; absence is not an error. -/
def revoke (st : AppState) (h : String) : AppState :=
  { st with authenticated := mErase st.authenticated h }

/-- The handshake/session operations a client can drive, for reachability
arguments over the two session registries. -/
inductive Op : Type
  | beginJoin (h u : String) : Op
  | confirmJoin (h : String) : Op
  | revoke (h : String) : Op
deriving DecidableEq, Repr

/-- Apply one operation to the state (the identity resolver is a parameter:
it is an external collaborator, §6). -/
def applyOp (resolve : String → Option Userinfo) (st : AppState) : Op → AppState
  | Op.beginJoin h u => beginJoin st h u
  | Op.confirmJoin h => (confirmJoin resolve st h).2
  | Op.revoke h => revoke st h

/-- Run a list of operations from a given state. -/
def runOps (resolve : String → Option Userinfo) (st : AppState) (ops : List Op) :
    AppState :=
  ops.foldl (applyOp resolve) st

/-- The exclusivity invariant of §3/§8: a sessionHash is present in at most
one of the Pending and Authenticated registries. -/
def PendingAuthExclusive (st : AppState) : Prop :=
  ∀ h : String, mfind st.pending h = none ∨ mfind st.authenticated h = none

/-- A fixed concrete resolver for concrete executions: every username
resolves, with a uuid determined by the username. -/
def resolveConst : String → Option Userinfo :=
  fun u => some { username := u, uuid := if u = "Alice" then 1 else 2,
                  auth_system := AuthSystem.internal }

/-- Whether an operation targets the given sessionHash. -/
def opTargets (t : String) : Op → Bool
  | Op.beginJoin h _ => h = t
  | Op.confirmJoin h => h = t
  | Op.revoke h => h = t

/-- States reachable from startup when `beginJoin` is only invoked with a
sessionHash that is not currently authenticated (§3: session hashes are
globally unique per handshake attempt, so an already-promoted hash is never
offered to `beginJoin` again); `confirmJoin` and `revoke` are unrestricted. -/
inductive ReachableFresh (resolve : String → Option Userinfo) : AppState → Prop
  | init (t : TomlTable) : ReachableFresh resolve (initialAppState t)
  | beginJoinStep (st : AppState) (h u : String) :
      ReachableFresh resolve st → mfind st.authenticated h = none →
      ReachableFresh resolve (beginJoin st h u)
  | confirmJoinStep (st : AppState) (h : String) :
      ReachableFresh resolve st →
      ReachableFresh resolve ((confirmJoin resolve st h).2)
  | revokeStep (st : AppState) (h : String) :
      ReachableFresh resolve st → ReachableFresh resolve (revoke st h)

/-- The state after `beginJoin("abc123","Alice")`, `confirmJoin("abc123")`,
`beginJoin("abc123","Bob")` — a run of the unrestricted operations in which a
hash that is already authenticated is handed to `beginJoin` again. -/
def doubleUseState : AppState :=
  runOps resolveConst (initialAppState [])
    [Op.beginJoin "abc123" "Alice", Op.confirmJoin "abc123",
     Op.beginJoin "abc123" "Bob"]

/-- Repeated confirmation attempts for the same hash: each attempt runs
`confirmJoin` on the state left by the previous one; the list collects the
outcomes in order. -/
def confirmRepeat (resolve : String → Option Userinfo) (st : AppState) (h : String) :
    Nat → List (Option Userinfo)
  | 0 => []
  | n + 1 =>
    let r := confirmJoin resolve st h
    r.1 :: confirmRepeat resolve r.2 h n

/-! ## Live-connection broadcast registry

The `ws` module declared at main.rs line 15 is not part of the provided tree;
the lifecycle below is modelled from the spec (§4.4). -/

/-- The ways a live connection can end (spec §4.4): client disconnect, write
error, process shutdown, or an abort (panic) of the per-connection task. -/
inductive CloseReason : Type
  | clientDisconnect : CloseReason
  | writeError : CloseReason
  | processShutdown : CloseReason
  | taskAborted : CloseReason
deriving DecidableEq, Repr

/-- Modelled from the spec (§4.4, §6): on upgrade to `Open`, allocate a
connection UUID, create a fan-out sender and register `(uuid → sender)`. -/
def openLiveConnection (st : AppState) (c : Nat) (sender : Nat) : AppState :=
  { st with broadcasts := mInsert st.broadcasts c sender }

/-- Modelled from the spec (§4.4): on `Closed` — whatever the reason — the
`(uuid → sender)` entry is removed from the registry; resources are released
on every exit path. -/
def closeConnection (st : AppState) (c : Nat) (_ : CloseReason) : AppState :=
  { st with broadcasts := mErase st.broadcasts c }

/-- The connections a ping tick publishes to: exactly the registered entries
(the ping task walks the broadcast registry). -/
def pingTargets (st : AppState) : List Nat :=
  st.broadcasts.map Prod.fst

/-! ## Reload loop, startup and configuration (main.rs lines 80-105, 153-157)

`config::Config::parse` (the `config` module, main.rs line 34) is not part of
the provided tree. Modelled from the spec: it returns the parsed configuration,
and per §4.5 a parse failure (file missing/unparsable) is fatal to the caller
("current behavior is fatal/unspecified"), i.e. the calling task panics; a
spawned tokio task that panics terminates for good while the rest of the
process keeps running. A parse outcome is therefore `Option Config`: `none`
is the fatal failure case. -/

/-- `config::Config` as used by `main` (main.rs lines 81-89): the listen
address, the motd and the `advanced_users` table. -/
structure Config : Type where
  listen : String
  motd : String
  advanced_users : TomlTable
deriving DecidableEq

/-- The process-wide server state: the shared `AppState`, the values `main`
fixed at startup (listen address, the motd captured by the `/motd` route
closure at main.rs lines 120-123), and whether the spawned reload task is
still alive. -/
structure ServerState : Type where
  app : AppState
  listen : String
  motd : String
  reloadAlive : Bool
deriving DecidableEq

/-- What a reader of the shared snapshot observes (main.rs line 99: readers
lock `advanced_users` and read it). -/
def readAdvancedUsers (st : ServerState) : TomlTable :=
  st.app.advanced_users

/-- One tick of the reload task (main.rs lines 94-105): parse `Config.toml`
afresh; if the parse result differs from the shared snapshot, replace the
snapshot, otherwise leave it untouched. The returned Bool reports whether the
shared snapshot was written. A fatal parse (`none`, see above) terminates the
spawned task: once dead it never runs another tick. -/
def reloadTick (st : ServerState) (parsed : Option TomlTable) : ServerState × Bool :=
  if st.reloadAlive then
    match parsed with
    | none => ({ st with reloadAlive := false }, false)
    | some newConfig =>
      if newConfig ≠ st.app.advanced_users then
        ({ st with app := { st.app with advanced_users := newConfig } }, true)
      else (st, false)
  else (st, false)

/-- Run the reload task over a list of tick outcomes. -/
def runReload (st : ServerState) (ticks : List (Option TomlTable)) : ServerState :=
  ticks.foldl (fun s p => (reloadTick s p).1) st

/-- The observable startup events of `main` in order: the one config parse at
main.rs line 81 and the listener bind at main.rs line 153. -/
inductive StartupEvent : Type
  | parseConfig : StartupEvent
  | bindListener : StartupEvent
deriving DecidableEq, BEq, Repr

/-- The startup event trace of `main` (main.rs lines 80-153) as a function of
the parse outcome: `Config::parse("Config.toml")` runs once, before anything
else; if it is fatal (`none`, modelled from spec §4.5) `main` never reaches
the bind, otherwise the listener is bound. -/
def startupEvents : Option Config → List StartupEvent
  | none => [StartupEvent.parseConfig]
  | some _ => [StartupEvent.parseConfig, StartupEvent.bindListener]

/-- The server state produced by startup (main.rs lines 80-105): `none` when
the initial parse is fatal (the server never starts listening — there is no
fallback or default configuration path); otherwise the registries start empty,
`advanced_users`, `listen` and `motd` come from the parsed config, and the
reload task is spawned alive. -/
def startupState : Option Config → Option ServerState
  | none => none
  | some c =>
    some { app := initialAppState c.advanced_users, listen := c.listen,
           motd := c.motd, reloadAlive := true }

/-! ## Routing and the access gate (main.rs lines 107-151)

The `Token` extractor lives in the `auth` module, which is not part of the
provided tree. Modelled from the spec (§4.3): the token is read from a request
header, must be present and non-empty, and must resolve in the
AuthenticatedRegistry; otherwise the request fails with `Unauthorized` before
reaching any handler. Which routes the gate covers is decided by `main.rs`
itself: `route_layer(from_extractor::<api_auth::Token>())` at line 149 is
installed after every route of the application router, so it applies to all
of them. -/

/-- The routes registered in `main` (main.rs lines 107-148): the nested auth
router (join-request and join-confirmation), the info/profile routes, the
status route `"/api/"` and the WebSocket route `"/ws"`. -/
inductive Route : Type
  | joinRequest : Route
  | joinConfirm : Route
  | limits : Route
  | version : Route
  | motd : Route
  | equip : Route
  | userInfo : Route
  | userAvatar : Route
  | avatarUpload : Route
  | avatarDelete : Route
  | status : Route
  | ws : Route
deriving DecidableEq, BEq, Repr

/-- Every route added to the routers of main.rs lines 107-148, in registration
order. -/
def registeredRoutes : List Route :=
  [Route.joinRequest, Route.joinConfirm, Route.limits, Route.version,
   Route.motd, Route.equip, Route.userInfo, Route.userAvatar,
   Route.avatarUpload, Route.avatarDelete, Route.status, Route.ws]

/-- Whether the `Token` route layer covers a route: `route_layer` at main.rs
line 149 comes after every `.nest`/`.route` call, so it covers exactly the
routes registered before it — all of them. -/
def gateApplies (r : Route) : Bool :=
  registeredRoutes.contains r

/-- Modelled from the spec (§4.3, extraction): the bearer token must be
present and non-empty. -/
def extractToken (tok : Option String) : Option String :=
  match tok with
  | none => none
  | some t => if t = "" then none else some t

/-- Modelled from the spec (§4.3, validation): extract the token and resolve
it in the AuthenticatedRegistry; any failure is `Unauthorized` (`none`). -/
def tokenGate (st : AppState) (tok : Option String) : Option Userinfo :=
  match extractToken tok with
  | none => none
  | some t => checkAccess st t

/-- Outcome of dispatching one request. -/
inductive RequestOutcome : Type
  | unauthorized : RequestOutcome
  | ok (id : Userinfo) : RequestOutcome
  | okPublic : RequestOutcome
deriving DecidableEq, Repr

/-- Dispatch of one request through the router of main.rs lines 145-151: if
the `Token` layer covers the route, the gate runs first and a gate failure
rejects the request before the handler (so the handler — abstracted as an
arbitrary state transformer — causes no side effects); otherwise the handler
runs ungated. -/
def dispatch (handler : AppState → Route → AppState) (st : AppState) (r : Route)
    (tok : Option String) : RequestOutcome × AppState :=
  if gateApplies r then
    match tokenGate st tok with
    | none => (RequestOutcome.unauthorized, st)
    | some id => (RequestOutcome.ok id, handler st r)
  else (RequestOutcome.okPublic, handler st r)

/-! ## Concrete executions used by witnesses and counterexamples -/

/-- The identity `resolveConst` assigns to `"Alice"`. -/
def idAlice : Userinfo :=
  { username := "Alice", uuid := 1, auth_system := AuthSystem.internal }

/-- The identity `resolveConst` assigns to `"Bob"`. -/
def idBob : Userinfo :=
  { username := "Bob", uuid := 2, auth_system := AuthSystem.internal }

/-- A full handshake for `"abc123"` as Alice, then a second full handshake for
the same hash as Bob — no `revoke` anywhere. -/
def rebindTrace : List Op :=
  [Op.beginJoin "abc123" "Alice", Op.confirmJoin "abc123",
   Op.beginJoin "abc123" "Bob", Op.confirmJoin "abc123"]

/-- A concrete running server for reload demonstrations. -/
def serverS0 : ServerState :=
  { app := initialAppState [("alice", "admin")], listen := "0.0.0.0:6665",
    motd := "The Sculptor", reloadAlive := true }

/-- A concrete startup configuration. -/
def config0 : Config :=
  { listen := "0.0.0.0:6665", motd := "The Sculptor",
    advanced_users := [("alice", "admin")] }

end Sculptor

namespace Sculptor

/-! ## Association-list map lemmas -/

theorem mfind_mInsert_self {κ α : Type} [DecidableEq κ] (m : List (κ × α)) (k : κ) (v : α) :
    mfind (mInsert m k v) k = some v := by
  simp [mInsert, mfind]

theorem mfind_mErase_self {κ α : Type} [DecidableEq κ] (m : List (κ × α)) (k : κ) :
    mfind (mErase m k) k = none := by
  induction m with
  | nil => simp [mErase, mfind]
  | cons p rest ih =>
    obtain ⟨k₁, v₁⟩ := p
    by_cases h : k₁ = k
    · simpa [mErase, h] using ih
    · simpa [mErase, mfind, h] using ih

theorem mfind_mErase_ne {κ α : Type} [DecidableEq κ] (m : List (κ × α)) (k k₁ : κ)
    (h : k₁ ≠ k) : mfind (mErase m k) k₁ = mfind m k₁ := by
  induction m with
  | nil => simp [mErase]
  | cons p rest ih =>
    obtain ⟨k₂, v₂⟩ := p
    by_cases h₂ : k₂ = k
    · subst h₂
      simp [mErase, mfind, ih, Ne.symm h]
    · simp [mErase, mfind, h₂, ih]

theorem mfind_mInsert_ne {κ α : Type} [DecidableEq κ] (m : List (κ × α)) (k k₁ : κ) (v : α)
    (h : k₁ ≠ k) : mfind (mInsert m k v) k₁ = mfind m k₁ := by
  simp [mInsert, mfind, Ne.symm h, mfind_mErase_ne m k k₁ h]

theorem mErase_noop {κ α : Type} [DecidableEq κ] (m : List (κ × α)) (k : κ)
    (h : mfind m k = none) : mErase m k = m := by
  induction m with
  | nil => simp [mErase]
  | cons p rest ih =>
    obtain ⟨k₁, v₁⟩ := p
    by_cases h₁ : k₁ = k
    · simp [mfind, h₁] at h
    · simp only [mfind, h₁, if_neg h₁] at h
      simp [mErase, h₁, ih h]

theorem mErase_mInsert_self {κ α : Type} [DecidableEq κ] (m : List (κ × α)) (k : κ) (v : α)
    (h : mfind m k = none) : mErase (mInsert m k v) k = m := by
  have h₁ : mErase m k = m := mErase_noop m k h
  simp [mInsert, mErase, h₁]

theorem not_mem_map_fst_of_mfind_none {κ α : Type} [DecidableEq κ]
    (m : List (κ × α)) (k : κ) (h : mfind m k = none) : k ∉ m.map Prod.fst := by
  induction m with
  | nil => simp
  | cons p rest ih =>
    obtain ⟨k₁, v₁⟩ := p
    by_cases h₁ : k₁ = k
    · simp [mfind, h₁] at h
    · simp only [mfind, if_neg h₁] at h
      simp [List.map_cons, List.mem_cons, Ne.symm h₁, ih h]

theorem mfind_isSome_of_mem_map_fst {κ α : Type} [DecidableEq κ]
    (m : List (κ × α)) (k : κ) (h : k ∈ m.map Prod.fst) : (mfind m k).isSome := by
  induction m with
  | nil => simp at h
  | cons p rest ih =>
    obtain ⟨k₁, v₁⟩ := p
    by_cases h₁ : k₁ = k
    · simp [mfind, h₁]
    · simp only [List.map_cons, List.mem_cons] at h
      rcases h with h | h
      · exact absurd h.symm h₁
      · simpa [mfind, h₁] using ih h

/-! ## C1: a sessionHash is in at most one of Pending and Authenticated -/

/-- C1 (counterexample): the claim fails as stated. Starting from the empty
state, the operation sequence `beginJoin("abc123","Alice")`,
`confirmJoin("abc123")`, `beginJoin("abc123","Bob")` — all of them operations
the code accepts, since `beginJoin` overwrites without checking the
AuthenticatedRegistry (§4.1) — reaches a state in which `"abc123"` is present
in both the Pending and the Authenticated registry at once. -/
theorem pending_auth_exclusive_cex : ¬ PendingAuthExclusive doubleUseState := by
  intro hinv
  rcases hinv "abc123" with hp | ha
  · exact absurd hp (by decide)
  · exact absurd ha (by decide)

/-- C1 (amended): for every state reachable from startup by `beginJoin`,
`confirmJoin` and `revoke`, every sessionHash is present in at most one of the
Pending and Authenticated registries — provided `beginJoin` is only invoked
with a hash that is not currently authenticated (session hashes are globally
unique per handshake attempt, §3); `confirmJoin` and `revoke` preserve the
invariant unconditionally. -/
theorem pending_auth_exclusive_of_reachable (resolve : String → Option Userinfo)
    (st : AppState) (hr : ReachableFresh resolve st) : PendingAuthExclusive st := by
  induction hr with
  | init t =>
    intro h
    left
    rfl
  | beginJoinStep st h u _ hfresh ih =>
    intro h₁
    by_cases he : h₁ = h
    · subst he
      right
      simpa [beginJoin] using hfresh
    · rcases ih h₁ with hp | ha
      · left
        simpa [beginJoin, mfind_mInsert_ne st.pending h h₁ u he] using hp
      · right
        simpa [beginJoin] using ha
  | confirmJoinStep st h _ ih =>
    intro h₁
    cases hfind : mfind st.pending h with
    | none => simpa [confirmJoin, takePending, hfind] using ih h₁
    | some u =>
      cases hres : resolve u with
      | none =>
        by_cases he : h₁ = h
        · subst he
          left
          simp [confirmJoin, takePending, hfind, hres, mfind_mErase_self]
        · rcases ih h₁ with hp | ha
          · left
            simp [confirmJoin, takePending, hfind, hres,
                  mfind_mErase_ne st.pending h h₁ he, hp]
          · right
            simpa [confirmJoin, takePending, hfind, hres] using ha
      | some id =>
        by_cases he : h₁ = h
        · subst he
          left
          simp [confirmJoin, takePending, hfind, hres, promote, mfind_mErase_self]
        · rcases ih h₁ with hp | ha
          · left
            simp [confirmJoin, takePending, hfind, hres, promote,
                  mfind_mErase_ne st.pending h h₁ he, hp]
          · right
            simp [confirmJoin, takePending, hfind, hres, promote,
                  mfind_mInsert_ne st.authenticated h h₁ id he, ha]
  | revokeStep st h _ ih =>
    intro h₁
    by_cases he : h₁ = h
    · subst he
      right
      simp [revoke, mfind_mErase_self]
    · rcases ih h₁ with hp | ha
      · left
        simpa [revoke] using hp
      · right
        simp [revoke, mfind_mErase_ne st.authenticated h h₁ he, ha]

/-- C1 witness: the amended invariant theorem applied to a concrete reachable
state: begin a join for `"abc123"` from the empty startup state (the hash is
not authenticated there) and then confirm it. -/
theorem pending_auth_exclusive_witness :
    PendingAuthExclusive
      ((confirmJoin resolveConst (beginJoin (initialAppState []) "abc123" "Alice")
        "abc123").2) :=
  pending_auth_exclusive_of_reachable resolveConst _
    (ReachableFresh.confirmJoinStep _ "abc123"
      (ReachableFresh.beginJoinStep (initialAppState []) "abc123" "Alice"
        (ReachableFresh.init []) (by rfl)))

/-! ## C5: confirmJoin succeeds at most once -/

theorem confirmJoin_not_pending (resolve : String → Option Userinfo) (st : AppState)
    (h : String) (hp : mfind st.pending h = none) :
    confirmJoin resolve st h = (none, st) := by
  simp [confirmJoin, takePending, hp]

theorem confirmRepeat_not_pending (resolve : String → Option Userinfo) (h : String) :
    ∀ (n : Nat) (st : AppState), mfind st.pending h = none →
      confirmRepeat resolve st h n = List.replicate n none := by
  intro n
  induction n with
  | zero => intro st _; rfl
  | succ n ih =>
    intro st hp
    simp [confirmRepeat, confirmJoin_not_pending resolve st h hp, List.replicate,
          ih st hp]

/-- C5: `confirmJoin(h)` succeeds at most once for a pending `h`. The
`takePending` at the heart of confirmation reads and removes the entry in one
step under the registry lock (the embedding linearises the attempts), so of
any sequence of confirmation attempts for the same `h`, exactly the first
succeeds and every later attempt observes `NotFound`/`Unauthorized` (`none`),
never a second success. -/
theorem confirm_join_at_most_once (resolve : String → Option Userinfo)
    (st : AppState) (h u : String) (id : Userinfo)
    (hp : mfind st.pending h = some u) (hres : resolve u = some id) (n : Nat) :
    confirmRepeat resolve st h (n + 1) = some id :: List.replicate n none := by
  have hstep : confirmJoin resolve st h =
      (some id, promote { st with pending := mErase st.pending h } h id) := by
    simp [confirmJoin, takePending, hp, hres]
  have hafter : mfind (promote { st with pending := mErase st.pending h } h id).pending h
      = none := by
    simp [promote, mfind_mErase_self]
  simp [confirmRepeat, hstep, confirmRepeat_not_pending resolve h n _ hafter]

/-- C5 witness: three confirmation attempts for `"abc123"` after
`beginJoin("abc123","Alice")`: the first yields Alice's identity, the second
and third fail. -/
theorem confirm_join_at_most_once_witness :
    confirmRepeat resolveConst (beginJoin (initialAppState []) "abc123" "Alice")
      "abc123" (2 + 1) = some idAlice :: List.replicate 2 none :=
  confirm_join_at_most_once resolveConst
    (beginJoin (initialAppState []) "abc123" "Alice") "abc123" "Alice" idAlice
    (by decide) (by decide) 2

/-! ## C6: checkAccess is stable under repetition -/

theorem checkAccess_applyOp_untargeted (resolve : String → Option Userinfo)
    (st : AppState) (t : String) (op : Op) (hop : opTargets t op = false) :
    checkAccess (applyOp resolve st op) t = checkAccess st t := by
  cases op with
  | beginJoin h u => simp [applyOp, beginJoin, checkAccess]
  | confirmJoin h =>
    have hne : t ≠ h := by
      intro he
      simp [opTargets, he] at hop
    cases hfind : mfind st.pending h with
    | none => simp [applyOp, confirmJoin_not_pending resolve st h hfind]
    | some u =>
      cases hres : resolve u with
      | none => simp [applyOp, confirmJoin, takePending, hfind, hres, checkAccess]
      | some id =>
        simp [applyOp, confirmJoin, takePending, hfind, hres, promote, checkAccess,
              mfind_mInsert_ne _ h t id hne]
  | revoke h =>
    have hne : t ≠ h := by
      intro he
      simp [opTargets, he] at hop
    simp [applyOp, revoke, checkAccess, mfind_mErase_ne _ h t hne]

theorem checkAccess_runOps_untargeted (resolve : String → Option Userinfo)
    (t : String) : ∀ (ops : List Op) (st : AppState),
    (∀ op ∈ ops, opTargets t op = false) →
      checkAccess (runOps resolve st ops) t = checkAccess st t := by
  intro ops
  induction ops with
  | nil => intro st _; rfl
  | cons op rest ih =>
    intro st hops
    have h₁ : opTargets t op = false := hops op (by simp)
    have h₂ : ∀ o ∈ rest, opTargets t o = false := fun o ho => hops o (by simp [ho])
    calc checkAccess (runOps resolve st (op :: rest)) t
        = checkAccess (runOps resolve (applyOp resolve st op) rest) t := rfl
      _ = checkAccess (applyOp resolve st op) t := ih _ h₂
      _ = checkAccess st t := checkAccess_applyOp_untargeted resolve st t op h₁

/-- C6 (counterexample): the claim fails as stated. In the trace
`beginJoin("abc123","Alice")`, `confirmJoin`, `beginJoin("abc123","Bob")`,
`confirmJoin` there is no `revoke("abc123")` at all, yet `checkAccess` on the
token `"abc123"` returns Alice's identity after the first confirmation and
Bob's — a different `UserIdentity` — after the second: re-running the
handshake with the same hash rebinds the token without any revoke. -/
theorem check_access_changes_without_revoke :
    (Op.revoke "abc123") ∉ rebindTrace ∧
    checkAccess (runOps resolveConst (initialAppState []) (rebindTrace.take 2))
      "abc123" = some idAlice ∧
    checkAccess (runOps resolveConst (initialAppState []) rebindTrace)
      "abc123" = some idBob ∧
    idAlice ≠ idBob :=
  ⟨by decide, by decide, by decide, by decide⟩

/-- C6 (amended): for a token `t` currently authenticated, `checkAccess(t)`
returns the same `UserIdentity` across any operations that do not target `t`
(no intervening `revoke(t)` and — as the counterexample forces — no
intervening handshake `beginJoin`/`confirmJoin` on `t`); after `revoke(t)`,
`checkAccess(t)` returns `Unauthorized` and keeps doing so under operations
not targeting `t`; and `revoke` of an absent token is not an error and
changes nothing. -/
theorem check_access_stable (resolve : String → Option Userinfo) (st : AppState)
    (t : String) (id : Userinfo) (ops : List Op)
    (hops : ∀ op ∈ ops, opTargets t op = false) :
    (checkAccess st t = some id →
      checkAccess (runOps resolve st ops) t = some id) ∧
    checkAccess (runOps resolve (revoke st t) ops) t = none ∧
    (checkAccess st t = none → revoke st t = st) := by
  refine ⟨?_, ?_, ?_⟩
  · intro hv
    rw [checkAccess_runOps_untargeted resolve t ops st hops]
    exact hv
  · rw [checkAccess_runOps_untargeted resolve t ops (revoke st t) hops]
    simp [revoke, checkAccess, mfind_mErase_self]
  · intro habs
    simp [revoke, mErase_noop st.authenticated t habs]

/-- C6 witness: the stability theorem applied to a concrete state in which
`"abc123"` is authenticated as Alice, with one unrelated operation (a join
request for a different hash) in between. -/
theorem check_access_stable_witness :
    (checkAccess (runOps resolveConst (initialAppState [])
        (rebindTrace.take 2)) "abc123" = some idAlice →
      checkAccess (runOps resolveConst
        (runOps resolveConst (initialAppState []) (rebindTrace.take 2))
        [Op.beginJoin "other" "Eve"]) "abc123" = some idAlice) ∧
    checkAccess (runOps resolveConst
      (revoke (runOps resolveConst (initialAppState []) (rebindTrace.take 2))
        "abc123") [Op.beginJoin "other" "Eve"]) "abc123" = none ∧
    (checkAccess (runOps resolveConst (initialAppState []) (rebindTrace.take 2))
        "abc123" = none →
      revoke (runOps resolveConst (initialAppState []) (rebindTrace.take 2))
        "abc123" = runOps resolveConst (initialAppState []) (rebindTrace.take 2)) :=
  check_access_stable resolveConst
    (runOps resolveConst (initialAppState []) (rebindTrace.take 2)) "abc123"
    idAlice [Op.beginJoin "other" "Eve"] (by decide)

/-! ## C7: broadcast-registry cleanup on close -/

/-- C7: for a fresh connection id `c`, once the connection transitions to
`Closed` — whatever the exit path: client disconnect, write error, process
shutdown, or an aborted (panicked) per-connection task — the `(c → sender)`
entry is removed: the registry is exactly its pre-connection baseline again
(in particular its size returns to the baseline), `c` is not among the ping
targets, and in any state a ping attempt only ever references ids that are
currently registered. -/
theorem broadcast_cleanup_on_close (st : AppState) (c s : Nat)
    (reason : CloseReason) (hfresh : mfind st.broadcasts c = none) :
    (closeConnection (openLiveConnection st c s) c reason).broadcasts
      = st.broadcasts ∧
    c ∉ pingTargets (closeConnection (openLiveConnection st c s) c reason) ∧
    (∀ st₁ : AppState, c ∈ pingTargets st₁ → (mfind st₁.broadcasts c).isSome) := by
  have h₁ : (closeConnection (openLiveConnection st c s) c reason).broadcasts
      = st.broadcasts := by
    simp [closeConnection, openLiveConnection,
          mErase_mInsert_self st.broadcasts c s hfresh]
  refine ⟨h₁, ?_, ?_⟩
  · show c ∉ (closeConnection (openLiveConnection st c s) c reason).broadcasts.map
      Prod.fst
    rw [h₁]
    exact not_mem_map_fst_of_mfind_none st.broadcasts c hfresh
  · intro st₁ hc
    exact mfind_isSome_of_mem_map_fst st₁.broadcasts c hc

/-- C7 witness: opening connection 7 on the empty registry and closing it for
each kind of exit path is checked at the panicked-task path. -/
theorem broadcast_cleanup_on_close_witness :
    (closeConnection (openLiveConnection (initialAppState []) 7 1) 7
        CloseReason.taskAborted).broadcasts = (initialAppState []).broadcasts ∧
    7 ∉ pingTargets (closeConnection (openLiveConnection (initialAppState []) 7 1) 7
        CloseReason.taskAborted) ∧
    (∀ st₁ : AppState, 7 ∈ pingTargets st₁ → (mfind st₁.broadcasts 7).isSome) :=
  broadcast_cleanup_on_close (initialAppState []) 7 1 CloseReason.taskAborted
    (by decide)

/-! ## C3: reload is idempotent and change-triggered -/

/-- C3: a reload tick compares the freshly parsed table by value with the
shared snapshot (main.rs line 101). If they are equal the shared snapshot is
not written (the tick is a no-op and reports no write); if they differ, the
new table is committed and is what every subsequent read observes. -/
theorem reload_tick_idempotent_change_triggered (st : ServerState) (t : TomlTable)
    (halive : st.reloadAlive = true) :
    (t = st.app.advanced_users → reloadTick st (some t) = (st, false)) ∧
    (t ≠ st.app.advanced_users →
      (reloadTick st (some t)).2 = true ∧
      readAdvancedUsers (reloadTick st (some t)).1 = t) := by
  constructor
  · intro heq
    simp [reloadTick, halive, heq]
  · intro hne
    simp [reloadTick, halive, hne, readAdvancedUsers]

/-- C3 witness: on the concrete server `serverS0`, re-parsing the identical
table writes nothing, and parsing a different table commits it. -/
theorem reload_tick_idempotent_witness :
    reloadTick serverS0 (some serverS0.app.advanced_users) = (serverS0, false) ∧
    (reloadTick serverS0 (some [("x", "y")])).2 = true ∧
    readAdvancedUsers (reloadTick serverS0 (some [("x", "y")])).1 = [("x", "y")] :=
  ⟨(reload_tick_idempotent_change_triggered serverS0 serverS0.app.advanced_users
      rfl).1 rfl,
   ((reload_tick_idempotent_change_triggered serverS0 [("x", "y")] rfl).2
      (by decide)).1,
   ((reload_tick_idempotent_change_triggered serverS0 [("x", "y")] rfl).2
      (by decide)).2⟩

/-! ## C9: the reload task only touches advanced_users -/

theorem reloadTick_frame (st : ServerState) (p : Option TomlTable) :
    (reloadTick st p).1.app.pending = st.app.pending ∧
    (reloadTick st p).1.app.authenticated = st.app.authenticated ∧
    (reloadTick st p).1.app.broadcasts = st.app.broadcasts ∧
    (reloadTick st p).1.listen = st.listen ∧
    (reloadTick st p).1.motd = st.motd := by
  by_cases ha : st.reloadAlive
  · cases p with
    | none => simp [reloadTick, ha]
    | some t =>
      by_cases ht : t = st.app.advanced_users
      · simp [reloadTick, ha, ht]
      · simp [reloadTick, ha, ht]
  · simp [reloadTick, ha]

/-- C9: across any number of reload ticks — successful, unchanged or failing —
the pending, authenticated and broadcast registries are untouched, and the
startup-fixed configuration values (the listen address and the motd served by
the `/motd` route closure) are never refreshed. -/
theorem reload_frame_effect (ticks : List (Option TomlTable)) :
    ∀ st : ServerState,
    (runReload st ticks).app.pending = st.app.pending ∧
    (runReload st ticks).app.authenticated = st.app.authenticated ∧
    (runReload st ticks).app.broadcasts = st.app.broadcasts ∧
    (runReload st ticks).listen = st.listen ∧
    (runReload st ticks).motd = st.motd := by
  induction ticks with
  | nil => intro st; exact ⟨rfl, rfl, rfl, rfl, rfl⟩
  | cons p rest ih =>
    intro st
    have h₁ := reloadTick_frame st p
    have h₂ := ih ((reloadTick st p).1)
    have hrun : runReload st (p :: rest) = runReload (reloadTick st p).1 rest := rfl
    rw [hrun]
    exact ⟨h₂.1.trans h₁.1, h₂.2.1.trans h₁.2.1, h₂.2.2.1.trans h₁.2.2.1,
           h₂.2.2.2.1.trans h₁.2.2.2.1, h₂.2.2.2.2.trans h₁.2.2.2.2⟩

/-! ## C2: behaviour of the reload loop on a parse failure -/

/-- C2 (code evaluated at the failing input): when a reload tick fails to
parse `Config.toml`, the previously committed snapshot indeed stays visible
and the process survives, but the loop does NOT continue: `Config::parse`'s
failure is fatal to the spawned task (main.rs line 98 has no error handling),
so a later tick in which the file parses to a different table is never
committed — whereas the same later tick is committed when no failure
preceded it. -/
theorem reload_loop_dies_after_config_failure :
    (runReload serverS0 [none, some [("bob", "admin")]]).app.advanced_users
      = [("alice", "admin")] ∧
    (runReload serverS0 [none, some [("bob", "admin")]]).reloadAlive = false ∧
    (runReload serverS0 [some [("bob", "admin")]]).app.advanced_users
      = [("bob", "admin")] :=
  ⟨by decide, by decide, by decide⟩

/-! ## C10: startup parses Config.toml once, before the bind -/

/-- C10: `main` parses `"Config.toml"` exactly once at startup, before the
listener is bound; the parse supplies the listen address, the motd and the
initial `advanced_users` snapshot; and when the initial parse cannot produce a
configuration the server never starts listening — there is no fallback or
default configuration path (`startupState` is `none`). -/
theorem startup_parse_once_before_bind (pc : Option Config) :
    (startupEvents pc).count StartupEvent.parseConfig = 1 ∧
    (startupEvents pc).head? = some StartupEvent.parseConfig ∧
    (pc = none →
      StartupEvent.bindListener ∉ startupEvents pc ∧ startupState pc = none) ∧
    (∀ c : Config, pc = some c →
      startupState pc = some { app := initialAppState c.advanced_users,
                               listen := c.listen, motd := c.motd,
                               reloadAlive := true }) := by
  refine ⟨?_, ?_, ?_, ?_⟩
  · cases pc <;> rfl
  · cases pc <;> rfl
  · intro hc
    subst hc
    exact ⟨by simp [startupEvents], rfl⟩
  · intro c hc
    subst hc
    rfl

/-- C10 witness: the startup theorem at the failing parse and at the concrete
configuration `config0`. -/
theorem startup_parse_once_before_bind_witness :
    (StartupEvent.bindListener ∉ startupEvents (none : Option Config) ∧
      startupState (none : Option Config) = none) ∧
    startupState (some config0)
      = some { app := initialAppState config0.advanced_users,
               listen := config0.listen, motd := config0.motd,
               reloadAlive := true } :=
  ⟨(startup_parse_once_before_bind none).2.2.1 rfl,
   (startup_parse_once_before_bind (some config0)).2.2.2 config0 rfl⟩

/-! ## C4: the access gate and its (absent) exemptions -/

/-- C4 (counterexample): the claim fails as stated. `route_layer` at main.rs
line 149 is installed after every route of the application router, so the
`Token` gate covers the health/status route `"/api/"` and the join
endpoints too: a tokenless join request is rejected with `Unauthorized`
instead of being exempt from the gate. -/
theorem gate_covers_status_and_join_routes :
    gateApplies Route.status = true ∧
    gateApplies Route.joinRequest = true ∧
    gateApplies Route.joinConfirm = true ∧
    dispatch (fun st _ => st) (initialAppState []) Route.joinRequest none
      = (RequestOutcome.unauthorized, initialAppState []) :=
  ⟨by decide, by decide, by decide, by decide⟩

/-- C4 (amended): the `Token` gate covers every registered route — including
the health/status endpoint and the join-request/join-confirmation endpoints,
which are NOT exempt — and on any route a request whose bearer token is
missing, empty, or not resolving in the AuthenticatedRegistry is rejected
with `Unauthorized` before reaching the handler, causing no handler-level
side effects (the state is returned untouched, for every handler). -/
theorem gate_rejects_invalid_token_on_all_routes
    (handler : AppState → Route → AppState) (st : AppState) (r : Route)
    (tok : Option String)
    (hbad : tok = none ∨ tok = some "" ∨
      ∀ t : String, tok = some t → checkAccess st t = none) :
    gateApplies r = true ∧
    dispatch handler st r tok = (RequestOutcome.unauthorized, st) := by
  have hg : gateApplies r = true := by cases r <;> rfl
  have hgate : tokenGate st tok = none := by
    rcases hbad with hn | he | hu
    · simp [hn, tokenGate, extractToken]
    · simp [he, tokenGate, extractToken]
    · cases tok with
      | none => simp [tokenGate, extractToken]
      | some t =>
        by_cases ht : t = ""
        · simp [tokenGate, extractToken, ht]
        · simp [tokenGate, extractToken, ht, hu t rfl]
  exact ⟨hg, by simp [dispatch, hg, hgate]⟩

/-- C4 witness: a request to the WebSocket route with a token unknown to the
(empty) AuthenticatedRegistry is rejected with `Unauthorized` and leaves the
state untouched, for the identity handler. -/
theorem gate_rejects_invalid_token_witness :
    gateApplies Route.ws = true ∧
    dispatch (fun st _ => st) (initialAppState []) Route.ws (some "tok123")
      = (RequestOutcome.unauthorized, initialAppState []) :=
  gate_rejects_invalid_token_on_all_routes (fun st _ => st) (initialAppState [])
    Route.ws (some "tok123")
    (Or.inr (Or.inr (fun t ht => by cases ht; rfl)))

end Sculptor
